import Mathlib

/-!
Shallow embedding of the liveStream-backend room coordination code:
the mongoose Room and Message schema methods (models/Room.js,
models/Message.js), the socket.io event handlers of src/server.js, and
the message search path of src/controllers/roomController.js.

Timestamps are modelled as natural numbers passed explicitly (the JS
code calls Date.now / new Date at the corresponding points).  The
mongoose document store is modelled as a list of room records plus a
list of message records; document save is modelled as replacement by
room id, Model.create as append.
-/

/-- Identity record as carried in the admin field and in user payloads:
uid, displayName, username, avatar. -/
structure UserInfo where
  uid : String
  displayName : String
  username : String
  avatar : String
deriving Repr, DecidableEq

/-- Participant membership record of the Room schema: identity fields,
join timestamp (schema default Date.now) and the socketId channel
handle (not required, hence optional). -/
structure Participant where
  uid : String
  displayName : String
  username : String
  avatar : String
  joinedAt : Nat
  socketId : Option String
deriving Repr, DecidableEq

/-- Room status enum of the schema: live, ended, scheduled. -/
inductive RoomStatus where
  | live
  | ended
  | scheduled
deriving Repr, DecidableEq

/-- Room record of the Room schema (models/Room.js), restricted to the
fields the coordination code reads or writes. -/
structure Room where
  id : String
  title : String
  description : String
  admin : UserInfo
  participants : List Participant
  isLive : Bool
  status : RoomStatus
  category : String
  tags : List String
  isPublic : Bool
  maxParticipants : Nat
  currentParticipants : Nat
  startedAt : Nat
  endedAt : Option Nat
  createdBy : String
  lastActivity : Nat
deriving Repr, DecidableEq

/-- Message type enum of the Message schema. -/
inductive MessageType where
  | text
  | image
  | file
  | system
deriving Repr, DecidableEq

/-- Message record of the Message schema (models/Message.js), restricted
to the fields the coordination and search code reads or writes.
createdAt is the mongoose timestamps field set at creation. -/
structure Message where
  id : String
  roomId : String
  text : String
  user : UserInfo
  socketId : Option String
  messageType : MessageType
  isEdited : Bool
  isDeleted : Bool
  isPinned : Bool
  createdAt : Nat
deriving Repr, DecidableEq

/-- RoomSchema.methods.addParticipant: if a participant with the same
uid already exists the document is returned unchanged; otherwise the
participant is pushed, currentParticipants is set to the new length of
the participants array and lastActivity is set to now. -/
def Room.addParticipant (room : Room) (p : Participant) (now : Nat) : Room :=
  if room.participants.any (fun q => q.uid == p.uid) then room
  else
    { room with
      participants := room.participants ++ [p]
      currentParticipants := (room.participants ++ [p]).length
      lastActivity := now }

/-- RoomSchema.methods.removeParticipant: filters out every participant
with the given uid, sets currentParticipants to the length of the
filtered array and lastActivity to now.  It does not check membership
first. -/
def Room.removeParticipant (room : Room) (uid : String) (now : Nat) : Room :=
  { room with
    participants := room.participants.filter (fun p => !(p.uid == uid))
    currentParticipants := (room.participants.filter (fun p => !(p.uid == uid))).length
    lastActivity := now }

/-- Helper for updateParticipantSocket: the JS method mutates the first
participant found with the given uid, leaving the rest untouched. -/
def setSocketFirst : List Participant → String → String → List Participant
  | [], _, _ => []
  | p :: ps, uid, sid =>
    if p.uid == uid then { p with socketId := some sid } :: ps
    else p :: setSocketFirst ps uid sid

/-- RoomSchema.methods.updateParticipantSocket: replaces the socketId of
the first participant with the given uid; a no-op if the uid is not a
member.  It does not touch currentParticipants or lastActivity. -/
def Room.updateParticipantSocket (room : Room) (uid : String) (sid : String) : Room :=
  { room with participants := setSocketFirst room.participants uid sid }

/-- RoomSchema.statics.findByRoomId: findOne on the id field, modelled
as the first list element with a matching id. -/
def Room.findByRoomId (rooms : List Room) (roomId : String) : Option Room :=
  rooms.find? (fun r => r.id == roomId)

/-- Document save on a looked-up room, modelled as replacing every
stored room with the same id by the mutated document. -/
def saveRoom (rooms : List Room) (r : Room) : List Room :=
  rooms.map (fun q => if q.id == r.id then r else q)

/-- Models the JS String.prototype.trim of the message-text validation,
on the character list (Lean String.trim does not reduce in the kernel). -/
def trimChars (l : List Char) : List Char :=
  ((l.dropWhile Char.isWhitespace).reverse.dropWhile Char.isWhitespace).reverse

/-- JS text.trim() on a Lean string. -/
def jsTrim (s : String) : String := ⟨trimChars s.data⟩

/-- Boolean test that the first character list is a prefix of the second. -/
def isPrefixList : List Char → List Char → Bool
  | [], _ => true
  | _ :: _, [] => false
  | a :: as, b :: bs => a == b && isPrefixList as bs

/-- Boolean test that pat occurs as a contiguous sublist of text. -/
def containsSub (pat : List Char) (text : List Char) : Bool :=
  match text with
  | [] => pat.isEmpty
  | _ :: cs => isPrefixList pat text || containsSub pat cs

/-- Modelled from the spec: the MongoDB regex match with option i that
backs MessageSchema.statics.searchMessages is not part of this
repository; the spec interface (section 6) specifies it as
case-insensitive substring match, which this definition implements. -/
def matchesCI (pat : String) (text : String) : Bool :=
  containsSub (pat.data.map Char.toLower) (text.data.map Char.toLower)

/-- Filter predicate of MessageSchema.statics.searchMessages: same
roomId, not soft-deleted, text matches the search term
case-insensitively. -/
def searchPred (roomId : String) (searchTerm : String) (m : Message) : Bool :=
  m.roomId == roomId && !m.isDeleted && matchesCI searchTerm m.text

/-- Sort comparator for createdAt descending, as a decidable relation. -/
def createdDesc (a b : Message) : Prop := b.createdAt ≤ a.createdAt

instance : DecidableRel createdDesc := fun _ _ => Nat.decLe _ _

instance : IsTotal Message createdDesc :=
  ⟨fun a b => Nat.le_total b.createdAt a.createdAt⟩

instance : IsTrans Message createdDesc :=
  ⟨fun _ _ _ h1 h2 => Nat.le_trans h2 h1⟩

/-- MessageSchema.statics.searchMessages: find by roomId, isDeleted
false and text regex match, sorted createdAt descending, limited. -/
def Message.searchMessages (msgs : List Message) (roomId : String)
    (searchTerm : String) (lim : Nat) : List Message :=
  ((msgs.filter (searchPred roomId searchTerm)).insertionSort createdDesc).take lim

/-- MessageSchema.statics.findRecentMessages: find by roomId and
isDeleted false, sorted createdAt descending, limited. -/
def Message.findRecentMessages (msgs : List Message) (roomId : String)
    (lim : Nat) : List Message :=
  ((msgs.filter (fun m => m.roomId == roomId && !m.isDeleted)).insertionSort
    createdDesc).take lim

/-- Stable error codes emitted by the socket handlers of server.js. -/
inductive ErrCode where
  | ROOM_ID_EXISTS
  | ROOM_NOT_FOUND
  | ROOM_NOT_LIVE
  | ROOM_FULL
  | EMPTY_MESSAGE
  | NOT_IN_ROOM
  | UNAUTHORIZED
deriving Repr, DecidableEq

/-- Socket events emitted by the handlers, tagged with the room they
target where relevant. -/
inductive Ev where
  | errorEv (code : ErrCode)
  | roomCreatedEv (roomId : String)
  | roomsUpdatedEv
  | roomUpdatedCallerEv (roomId : String)
  | existingMessagesEv (roomId : String)
  | userJoinedEv (roomId : String) (uid : String)
  | roomUpdatedOthersEv (roomId : String)
  | newMessageEv (roomId : String) (m : Message)
  | userLeftEv (roomId : String) (uid : String)
  | roomDeletedEv (roomId : String)
deriving Repr, DecidableEq

/-- The durable store as the handlers see it: room records plus message
records. -/
structure SState where
  rooms : List Room
  msgs : List Message
deriving Repr, DecidableEq

/-- createRoom handler (server.js): reject ROOM_ID_EXISTS when the id is
registered; otherwise create the room live, with the admin as sole
participant carrying the creator socket id.  maxParticipants falls back
to 100 when the requested value is falsy (0), currentParticipants takes
its schema default 1, startedAt and lastActivity its defaults now. -/
def createRoomH (st : SState) (roomId : String) (title : String)
    (description : String) (admin : UserInfo) (category : String)
    (tags : List String) (isPublic : Bool) (maxP : Nat) (sock : String)
    (now : Nat) : List Ev × SState :=
  match Room.findByRoomId st.rooms roomId with
  | some _ => ([Ev.errorEv ErrCode.ROOM_ID_EXISTS], st)
  | none =>
    let newRoom : Room :=
      { id := roomId
        title := title
        description := description
        admin := admin
        participants :=
          [{ uid := admin.uid, displayName := admin.displayName,
             username := admin.username, avatar := admin.avatar,
             joinedAt := now, socketId := some sock }]
        isLive := true
        status := RoomStatus.live
        category := category
        tags := tags
        isPublic := isPublic
        maxParticipants := if maxP = 0 then 100 else maxP
        currentParticipants := 1
        startedAt := now
        endedAt := none
        createdBy := sock
        lastActivity := now }
    ([Ev.roomsUpdatedEv, Ev.roomCreatedEv roomId],
     { st with rooms := st.rooms ++ [newRoom] })

/-- joinRoom handler (server.js): reject ROOM_NOT_FOUND when lookup
fails; ROOM_NOT_LIVE when isLive is false or status is not live;
ROOM_FULL when currentParticipants is at least maxParticipants (this
capacity check runs before the membership check); otherwise replace the
socket of an existing participant with the same uid, or add a new
participant, and save.  On success the caller receives roomUpdated and
existingMessages, the others userJoined and roomUpdated. -/
def joinRoomH (st : SState) (roomId : String) (user : UserInfo)
    (sock : String) (now : Nat) : List Ev × SState :=
  match Room.findByRoomId st.rooms roomId with
  | none => ([Ev.errorEv ErrCode.ROOM_NOT_FOUND], st)
  | some room =>
    if !room.isLive || !(room.status == RoomStatus.live) then
      ([Ev.errorEv ErrCode.ROOM_NOT_LIVE], st)
    else if room.maxParticipants ≤ room.currentParticipants then
      ([Ev.errorEv ErrCode.ROOM_FULL], st)
    else
      let room' :=
        match room.participants.find? (fun p => p.uid == user.uid) with
        | some _ => room.updateParticipantSocket user.uid sock
        | none =>
          room.addParticipant
            { uid := user.uid, displayName := user.displayName,
              username := user.username, avatar := user.avatar,
              joinedAt := now, socketId := some sock } now
      ([Ev.roomUpdatedCallerEv roomId, Ev.existingMessagesEv roomId,
        Ev.userJoinedEv roomId user.uid, Ev.roomUpdatedOthersEv roomId],
       { st with rooms := saveRoom st.rooms room' })

/-- Message record the sendMessage handler builds: trimmed text, author
snapshot, sender socket, type text, schema defaults for the flags,
createdAt from the timestamps option. -/
def sentMessage (roomId text : String) (user : UserInfo) (sock msgId : String)
    (now : Nat) : Message :=
  { id := msgId
    roomId := roomId
    text := jsTrim text
    user := user
    socketId := some sock
    messageType := MessageType.text
    isEdited := false
    isDeleted := false
    isPinned := false
    createdAt := now }

/-- sendMessage handler (server.js): reject EMPTY_MESSAGE when the
trimmed text is empty; ROOM_NOT_FOUND when lookup fails; NOT_IN_ROOM
when the sender uid is not a participant.  Otherwise create the message
record, bump lastActivity on the room, save, and broadcast newMessage
to the room.  The handler performs no check of the room status. -/
def sendMessageH (st : SState) (roomId : String) (text : String)
    (user : UserInfo) (sock : String) (msgId : String) (now : Nat) :
    List Ev × SState :=
  if (jsTrim text).length = 0 then
    ([Ev.errorEv ErrCode.EMPTY_MESSAGE], st)
  else
    match Room.findByRoomId st.rooms roomId with
    | none => ([Ev.errorEv ErrCode.ROOM_NOT_FOUND], st)
    | some room =>
      if !room.participants.any (fun p => p.uid == user.uid) then
        ([Ev.errorEv ErrCode.NOT_IN_ROOM], st)
      else
        let msg := sentMessage roomId text user sock msgId now
        let room' := { room with lastActivity := now }
        ([Ev.newMessageEv roomId msg],
         { st with rooms := saveRoom st.rooms room', msgs := st.msgs ++ [msg] })

/-- leaveRoom handler (server.js): when the room is found, remove the
participant by uid (the schema method is a filter, a no-op when the uid
is absent), save, and notify the others; when the lookup fails the
handler only leaves the socket, emitting nothing.  There is no status
or membership precondition. -/
def leaveRoomH (st : SState) (roomId : String) (user : UserInfo)
    (now : Nat) : List Ev × SState :=
  match Room.findByRoomId st.rooms roomId with
  | none => ([], st)
  | some room =>
    let room' := room.removeParticipant user.uid now
    ([Ev.userLeftEv roomId user.uid, Ev.roomUpdatedOthersEv roomId],
     { st with rooms := saveRoom st.rooms room' })

/-- endStream handler (server.js): reject ROOM_NOT_FOUND when lookup
fails; UNAUTHORIZED when the admin uid differs from the uid of the
current socket user (or no user is set).  Otherwise set isLive false,
status ended, endedAt now, save, and emit roomDeleted to the room and
roomsUpdated to all. -/
def endStreamH (st : SState) (roomId : String) (currentUser : Option UserInfo)
    (now : Nat) : List Ev × SState :=
  match Room.findByRoomId st.rooms roomId with
  | none => ([Ev.errorEv ErrCode.ROOM_NOT_FOUND], st)
  | some room =>
    if !(match currentUser with
         | some u => room.admin.uid == u.uid
         | none => false) then
      ([Ev.errorEv ErrCode.UNAUTHORIZED], st)
    else
      let room' :=
        { room with isLive := false, status := RoomStatus.ended,
                    endedAt := some now }
      ([Ev.roomDeletedEv roomId, Ev.roomsUpdatedEv],
       { st with rooms := saveRoom st.rooms room' })

/-- disconnect handler (server.js): when the socket has a current room
and user, remove that user from the room if the room is still found and
notify the others; in every case emit a final roomsUpdated.  A missing
room is treated as a no-op, not an error. -/
def disconnectH (st : SState) (currentRoom : Option String)
    (currentUser : Option UserInfo) (now : Nat) : List Ev × SState :=
  match currentRoom, currentUser with
  | some rid, some u =>
    (match Room.findByRoomId st.rooms rid with
     | none => ([Ev.roomsUpdatedEv], st)
     | some room =>
       let room' := room.removeParticipant u.uid now
       ([Ev.userLeftEv rid u.uid, Ev.roomUpdatedOthersEv rid, Ev.roomsUpdatedEv],
        { st with rooms := saveRoom st.rooms room' }))
  | _, _ => ([Ev.roomsUpdatedEv], st)

/-- One client operation on the coordination core, with its payload. -/
inductive Op where
  | create (roomId title description : String) (admin : UserInfo)
      (category : String) (tags : List String) (isPublic : Bool)
      (maxP : Nat) (sock : String)
  | join (roomId : String) (user : UserInfo) (sock : String)
  | send (roomId text : String) (user : UserInfo) (sock msgId : String)
  | leave (roomId : String) (user : UserInfo)
  | endS (roomId : String) (currentUser : Option UserInfo)
  | disc (currentRoom : Option String) (currentUser : Option UserInfo)

/-- Dispatch one operation to its handler. -/
def applyOp (st : SState) (op : Op) (now : Nat) : List Ev × SState :=
  match op with
  | Op.create roomId title description admin category tags isPublic maxP sock =>
    createRoomH st roomId title description admin category tags isPublic maxP sock now
  | Op.join roomId user sock => joinRoomH st roomId user sock now
  | Op.send roomId text user sock msgId => sendMessageH st roomId text user sock msgId now
  | Op.leave roomId user => leaveRoomH st roomId user now
  | Op.endS roomId currentUser => endStreamH st roomId currentUser now
  | Op.disc currentRoom currentUser => disconnectH st currentRoom currentUser now

/-- Server states reachable from the empty store by the core
operations. -/
inductive Reachable : SState → Prop where
  | init : Reachable ⟨[], []⟩
  | step (st : SState) (op : Op) (now : Nat) :
      Reachable st → Reachable (applyOp st op now).2

/-- Decision and in-memory mutation the joinRoom handler applies to the
document snapshot it read: none when the handler would emit
ROOM_NOT_LIVE or ROOM_FULL against that snapshot, otherwise the
document it saves. -/
def joinWriteBack (room : Room) (user : UserInfo) (sock : String) (now : Nat) :
    Option Room :=
  if !room.isLive || !(room.status == RoomStatus.live) then none
  else if room.maxParticipants ≤ room.currentParticipants then none
  else
    some (match room.participants.find? (fun p => p.uid == user.uid) with
      | some _ => room.updateParticipantSocket user.uid sock
      | none =>
        room.addParticipant
          { uid := user.uid, displayName := user.displayName,
            username := user.username, avatar := user.avatar,
            joinedAt := now, socketId := some sock } now)

/-- Decision and in-memory mutation the endStream handler applies to the
document snapshot it read: none when the requester is not the admin,
otherwise the ended document it saves. -/
def endWriteBack (room : Room) (requester : UserInfo) (now : Nat) : Option Room :=
  if room.admin.uid == requester.uid then
    some { room with isLive := false, status := RoomStatus.ended,
                     endedAt := some now }
  else none

/-- One interleaving the async handlers admit: both the joinRoom and the
endStream handler await their findByRoomId before either awaits its
save, so both hold the same document snapshot; the endStream handler
then commits its save, after which the joinRoom handler resumes with
its stale snapshot (whose liveness check it already passed) and commits
its own save.  Returns some final store exactly when both handlers
reach their success paths (joinRoom emits its success events, endStream
emits roomDeleted). -/
def joinRaceEnd (st : SState) (roomId : String) (user : UserInfo)
    (sock : String) (requester : UserInfo) (tEnd tJoin : Nat) :
    Option SState :=
  match Room.findByRoomId st.rooms roomId with
  | none => none
  | some snap =>
    match endWriteBack snap requester tEnd with
    | none => none
    | some endedDoc =>
      let st1 : SState := { st with rooms := saveRoom st.rooms endedDoc }
      match joinWriteBack snap user sock tJoin with
      | none => none
      | some joinedDoc =>
        some { st1 with rooms := saveRoom st1.rooms joinedDoc }

/-- Observable room projection used for the disconnect idempotence
claim: identity, membership and derived count. -/
def roomObs (r : Room) : String × List Participant × Nat :=
  (r.id, r.participants, r.currentParticipants)

/-- Fixture identity A (room admin in the concrete scenarios). -/
def userA : UserInfo :=
  { uid := "A", displayName := "Alice", username := "alice", avatar := "" }

/-- Fixture identity B. -/
def userB : UserInfo :=
  { uid := "B", displayName := "Bob", username := "bob", avatar := "" }

/-- Membership record of a fixture identity with a connected socket. -/
def memberOf (u : UserInfo) (t : Nat) (sock : String) : Participant :=
  { uid := u.uid, displayName := u.displayName, username := u.username,
    avatar := u.avatar, joinedAt := t, socketId := some sock }

/-- Fixture live room with admin A as sole member and spare capacity. -/
def roomHome : Room :=
  { id := "r1", title := "home", description := "", admin := userA,
    participants := [memberOf userA 0 "s1"], isLive := true,
    status := RoomStatus.live, category := "general", tags := [],
    isPublic := true, maxParticipants := 10, currentParticipants := 1,
    startedAt := 0, endedAt := none, createdBy := "s1", lastActivity := 5 }

/-- Fixture store holding only roomHome. -/
def stHome : SState := { rooms := [roomHome], msgs := [] }

/-- Fixture live room at capacity: one slot, filled by admin A. -/
def roomCap : Room := { roomHome with maxParticipants := 1 }

/-- Fixture store holding only roomCap. -/
def stCap : SState := { rooms := [roomCap], msgs := [] }

/-- Fixture ended room that still records members A and B. -/
def roomEnded : Room :=
  { id := "r1", title := "home", description := "", admin := userA,
    participants := [memberOf userA 0 "s1", memberOf userB 1 "s2"],
    isLive := false, status := RoomStatus.ended, category := "general",
    tags := [], isPublic := true, maxParticipants := 10,
    currentParticipants := 2, startedAt := 0, endedAt := some 4,
    createdBy := "s1", lastActivity := 5 }

/-- Fixture store holding only roomEnded. -/
def stEnded : SState := { rooms := [roomEnded], msgs := [] }

/-- Fixture room record as created by the createRoom handler from the
concrete arguments used in the reachable-state witnesses. -/
def createdRoom : Room :=
  { id := "r1", title := "t", description := "d", admin := userA,
    participants := [memberOf userA 0 "s1"], isLive := true,
    status := RoomStatus.live, category := "g", tags := [], isPublic := true,
    maxParticipants := 2, currentParticipants := 1, startedAt := 0,
    endedAt := none, createdBy := "s1", lastActivity := 0 }

/-- Fixture stored message with text hi from B in room r1. -/
def msgHi : Message :=
  { id := "m0", roomId := "r1", text := "hi", user := userB,
    socketId := some "s2", messageType := MessageType.text, isEdited := false,
    isDeleted := false, isPinned := false, createdAt := 3 }

/-- Derived-count invariant: the stored currentParticipants field equals
the length of the participants array. -/
def countOk (r : Room) : Prop := r.currentParticipants = r.participants.length

/-- Uniqueness invariant: the participant uids of a room are pairwise
distinct. -/
def uidsOk (r : Room) : Prop := (r.participants.map (fun p => p.uid)).Nodup

/-- Conjunction of the two per-room invariants. -/
def roomInv (r : Room) : Prop := countOk r ∧ uidsOk r

theorem setSocketFirst_map_uid (ps : List Participant) (uid sid : String) :
    (setSocketFirst ps uid sid).map (fun p => p.uid) = ps.map (fun p => p.uid) := by
  induction ps with
  | nil => rfl
  | cons p ps ih =>
    by_cases h : (p.uid == uid) = true
    · simp [setSocketFirst, h]
    · simp only [setSocketFirst]
      rw [if_neg h]
      simp [ih]

theorem setSocketFirst_length (ps : List Participant) (uid sid : String) :
    (setSocketFirst ps uid sid).length = ps.length := by
  have h := congrArg List.length (setSocketFirst_map_uid ps uid sid)
  simpa using h

theorem roomInv_updateParticipantSocket (room : Room) (uid sid : String)
    (h : roomInv room) : roomInv (room.updateParticipantSocket uid sid) := by
  unfold roomInv countOk uidsOk at h ⊢
  obtain ⟨hc, hu⟩ := h
  constructor
  · simp [Room.updateParticipantSocket, setSocketFirst_length, hc]
  · simp only [Room.updateParticipantSocket]
    rw [setSocketFirst_map_uid]
    exact hu

theorem roomInv_addParticipant (room : Room) (p : Participant) (now : Nat)
    (h : roomInv room) : roomInv (room.addParticipant p now) := by
  unfold roomInv countOk uidsOk at h ⊢
  obtain ⟨hc, hu⟩ := h
  by_cases hex : (room.participants.any (fun q => q.uid == p.uid)) = true
  · simpa [Room.addParticipant, hex] using ⟨hc, hu⟩
  · have hnot : p.uid ∉ room.participants.map (fun q => q.uid) := by
      intro hmem
      obtain ⟨q, hq, hquid⟩ := List.mem_map.mp hmem
      have : (room.participants.any (fun q => q.uid == p.uid)) = true :=
        List.any_eq_true.mpr ⟨q, hq, by simp [hquid]⟩
      exact hex this
    constructor
    · simp [Room.addParticipant, hex]
    · simp only [Room.addParticipant, if_neg hex]
      simp only [List.map_append, List.map_cons, List.map_nil]
      simp [List.nodup_append, hu, hnot]

theorem roomInv_removeParticipant (room : Room) (uid : String) (now : Nat)
    (h : roomInv room) : roomInv (room.removeParticipant uid now) := by
  unfold roomInv countOk uidsOk at h ⊢
  obtain ⟨_, hu⟩ := h
  constructor
  · simp [Room.removeParticipant]
  · simp only [Room.removeParticipant]
    exact hu.sublist (List.Sublist.map _ (List.filter_sublist room.participants))

theorem mem_of_findByRoomId {rooms : List Room} {rid : String} {room : Room}
    (h : Room.findByRoomId rooms rid = some room) : room ∈ rooms :=
  List.mem_of_find?_eq_some h

theorem id_of_findByRoomId {rooms : List Room} {rid : String} {room : Room}
    (h : Room.findByRoomId rooms rid = some room) : room.id = rid := by
  have h' : List.find? (fun r => r.id == rid) rooms = some room := h
  have hp := @List.find?_some Room (fun r => r.id == rid) room rooms h'
  exact eq_of_beq (by simpa using hp)

theorem mem_saveRoom {P : Room → Prop} {rooms : List Room} {doc : Room}
    (hA : ∀ r ∈ rooms, P r) (hd : P doc) : ∀ r ∈ saveRoom rooms doc, P r := by
  intro r hr
  simp only [saveRoom, List.mem_map] at hr
  obtain ⟨q, hq, hqr⟩ := hr
  by_cases h : (q.id == doc.id) = true
  · rw [if_pos h] at hqr
    exact hqr ▸ hd
  · rw [if_neg h] at hqr
    exact hqr ▸ hA q hq

theorem find?_saveRoom (rid : String) (doc : Room) (hdid : doc.id = rid)
    (rooms : List Room) :
    (∃ room, List.find? (fun r => r.id == rid) rooms = some room) →
    List.find? (fun r => r.id == rid) (saveRoom rooms doc) = some doc := by
  induction rooms with
  | nil =>
    rintro ⟨room, h⟩
    simp at h
  | cons q qs ih =>
    rintro ⟨room, h⟩
    by_cases hq : (q.id == rid) = true
    · have hqd : (q.id == doc.id) = true := beq_iff_eq.mpr ((eq_of_beq hq).trans hdid.symm)
      simp only [saveRoom, List.map_cons, if_pos hqd]
      exact List.find?_cons_of_pos _ (beq_iff_eq.mpr hdid)
    · have h'' : List.find? (fun r => r.id == rid) qs = some room := by
        rw [List.find?_cons_of_neg _ (by simp [hq])] at h
        exact h
      have hqd : (q.id == doc.id) = false := by
        apply beq_eq_false_iff_ne.mpr
        intro he
        rw [he, hdid] at hq
        simp at hq
      simp only [saveRoom, List.map_cons, if_neg (by simp [hqd] : ¬(q.id == doc.id) = true)]
      rw [List.find?_cons_of_neg _ (by simp [hq])]
      exact ih ⟨room, h''⟩

theorem findByRoomId_saveRoom {rooms : List Room} {rid : String} {room doc : Room}
    (hfind : Room.findByRoomId rooms rid = some room) (hid : doc.id = room.id) :
    Room.findByRoomId (saveRoom rooms doc) rid = some doc := by
  have hrid : room.id = rid := id_of_findByRoomId hfind
  exact find?_saveRoom rid doc (hid.trans hrid) rooms ⟨room, hfind⟩

theorem createRoomH_rooms (st : SState) (roomId title description : String)
    (admin : UserInfo) (category : String) (tags : List String) (isPublic : Bool)
    (maxP : Nat) (sock : String) (now : Nat) :
    (createRoomH st roomId title description admin category tags isPublic maxP sock now).2.rooms
      = st.rooms ∨
    ∃ nr : Room, nr.participants.length = 1 ∧ nr.currentParticipants = 1 ∧
      (createRoomH st roomId title description admin category tags isPublic maxP sock now).2.rooms
        = st.rooms ++ [nr] := by
  unfold createRoomH
  split
  · left; rfl
  · right
    refine ⟨_, ?_, ?_, rfl⟩
    · rfl
    · rfl

theorem joinRoomH_rooms (st : SState) (roomId : String) (user : UserInfo)
    (sock : String) (now : Nat) :
    (joinRoomH st roomId user sock now).2.rooms = st.rooms ∨
    ∃ room, Room.findByRoomId st.rooms roomId = some room ∧
      ((joinRoomH st roomId user sock now).2.rooms
          = saveRoom st.rooms (room.updateParticipantSocket user.uid sock) ∨
       ∃ p : Participant, (joinRoomH st roomId user sock now).2.rooms
          = saveRoom st.rooms (room.addParticipant p now)) := by
  unfold joinRoomH
  split
  · left; rfl
  next room heq =>
    split
    · left; rfl
    · split
      · left; rfl
      · right
        refine ⟨room, heq, ?_⟩
        split
        · left; rfl
        · right; exact ⟨_, rfl⟩

theorem sendMessageH_rooms (st : SState) (roomId text : String) (user : UserInfo)
    (sock msgId : String) (now : Nat) :
    (sendMessageH st roomId text user sock msgId now).2.rooms = st.rooms ∨
    ∃ room, Room.findByRoomId st.rooms roomId = some room ∧
      (sendMessageH st roomId text user sock msgId now).2.rooms
        = saveRoom st.rooms { room with lastActivity := now } := by
  unfold sendMessageH
  split
  · left; rfl
  · split
    · left; rfl
    next room heq =>
      split
      · left; rfl
      · right; exact ⟨room, heq, rfl⟩

theorem leaveRoomH_rooms (st : SState) (roomId : String) (user : UserInfo)
    (now : Nat) :
    (leaveRoomH st roomId user now).2.rooms = st.rooms ∨
    ∃ room, Room.findByRoomId st.rooms roomId = some room ∧
      (leaveRoomH st roomId user now).2.rooms
        = saveRoom st.rooms (room.removeParticipant user.uid now) := by
  unfold leaveRoomH
  split
  · left; rfl
  next room heq => right; exact ⟨room, heq, rfl⟩

theorem endStreamH_rooms (st : SState) (roomId : String)
    (currentUser : Option UserInfo) (now : Nat) :
    (endStreamH st roomId currentUser now).2.rooms = st.rooms ∨
    ∃ room, Room.findByRoomId st.rooms roomId = some room ∧
      (endStreamH st roomId currentUser now).2.rooms
        = saveRoom st.rooms
            { room with isLive := false, status := RoomStatus.ended,
                        endedAt := some now } := by
  unfold endStreamH
  split
  · left; rfl
  next room heq =>
    split
    · left; rfl
    · right; exact ⟨room, heq, rfl⟩

theorem disconnectH_rooms (st : SState) (currentRoom : Option String)
    (currentUser : Option UserInfo) (now : Nat) :
    (disconnectH st currentRoom currentUser now).2.rooms = st.rooms ∨
    ∃ rid u room, currentRoom = some rid ∧ currentUser = some u ∧
      Room.findByRoomId st.rooms rid = some room ∧
      (disconnectH st currentRoom currentUser now).2.rooms
        = saveRoom st.rooms (room.removeParticipant u.uid now) := by
  unfold disconnectH
  split
  next rid u =>
    split
    · left; rfl
    next room heq => right; exact ⟨rid, u, room, rfl, rfl, heq, rfl⟩
  · left; rfl

theorem applyOp_roomInv (st : SState) (op : Op) (now : Nat)
    (hA : ∀ r ∈ st.rooms, roomInv r) :
    ∀ r ∈ (applyOp st op now).2.rooms, roomInv r := by
  cases op with
  | create roomId title description admin category tags isPublic maxP sock =>
    rcases createRoomH_rooms st roomId title description admin category tags
        isPublic maxP sock now with h | ⟨nr, hlen, hcur, h⟩
    · rw [applyOp, h]; exact hA
    · rw [applyOp, h]
      intro r hr
      rcases List.mem_append.mp hr with h1 | h2
      · exact hA r h1
      · have hr' : r = nr := by simpa using h2
        subst hr'
        obtain ⟨a, ha⟩ := List.length_eq_one.mp hlen
        constructor
        · show r.currentParticipants = r.participants.length
          rw [hcur, hlen]
        · show (r.participants.map (fun p => p.uid)).Nodup
          rw [ha]
          simp
  | join roomId user sock =>
    rcases joinRoomH_rooms st roomId user sock now with h | ⟨room, hf, h | ⟨p, h⟩⟩
    · rw [applyOp, h]; exact hA
    · rw [applyOp, h]
      exact mem_saveRoom hA
        (roomInv_updateParticipantSocket room user.uid sock (hA room (mem_of_findByRoomId hf)))
    · rw [applyOp, h]
      exact mem_saveRoom hA
        (roomInv_addParticipant room p now (hA room (mem_of_findByRoomId hf)))
  | send roomId text user sock msgId =>
    rcases sendMessageH_rooms st roomId text user sock msgId now with h | ⟨room, hf, h⟩
    · rw [applyOp, h]; exact hA
    · rw [applyOp, h]
      exact mem_saveRoom hA (hA room (mem_of_findByRoomId hf))
  | leave roomId user =>
    rcases leaveRoomH_rooms st roomId user now with h | ⟨room, hf, h⟩
    · rw [applyOp, h]; exact hA
    · rw [applyOp, h]
      exact mem_saveRoom hA
        (roomInv_removeParticipant room user.uid now (hA room (mem_of_findByRoomId hf)))
  | endS roomId currentUser =>
    rcases endStreamH_rooms st roomId currentUser now with h | ⟨room, hf, h⟩
    · rw [applyOp, h]; exact hA
    · rw [applyOp, h]
      exact mem_saveRoom hA (hA room (mem_of_findByRoomId hf))
  | disc currentRoom currentUser =>
    rcases disconnectH_rooms st currentRoom currentUser now with h | ⟨rid, u, room, _, _, hf, h⟩
    · rw [applyOp, h]; exact hA
    · rw [applyOp, h]
      exact mem_saveRoom hA
        (roomInv_removeParticipant room u.uid now (hA room (mem_of_findByRoomId hf)))

theorem reachable_roomInv {st : SState} (h : Reachable st) :
    ∀ r ∈ st.rooms, roomInv r := by
  induction h with
  | init => intro r hr; simp at hr
  | step st op now hst ih => exact applyOp_roomInv st op now ih

theorem joinRoomH_notLive (st : SState) (rid : String) (user : UserInfo)
    (sock : String) (now : Nat) (room : Room)
    (hf : Room.findByRoomId st.rooms rid = some room)
    (h : room.isLive = false ∨ room.status ≠ RoomStatus.live) :
    joinRoomH st rid user sock now = ([Ev.errorEv ErrCode.ROOM_NOT_LIVE], st) := by
  have hc1 : (!room.isLive || !(room.status == RoomStatus.live)) = true := by
    rcases h with h | h
    · simp [h]
    · have hb : (room.status == RoomStatus.live) = false := beq_eq_false_iff_ne.mpr h
      simp [hb]
  unfold joinRoomH
  rw [hf]
  dsimp only
  rw [if_pos hc1]

theorem joinRoomH_full (st : SState) (rid : String) (user : UserInfo)
    (sock : String) (now : Nat) (room : Room)
    (hf : Room.findByRoomId st.rooms rid = some room)
    (hlive : room.isLive = true) (hst : room.status = RoomStatus.live)
    (hcap : room.maxParticipants ≤ room.currentParticipants) :
    joinRoomH st rid user sock now = ([Ev.errorEv ErrCode.ROOM_FULL], st) := by
  unfold joinRoomH
  rw [hf]
  dsimp only
  have hc1 : ¬((!room.isLive || !(room.status == RoomStatus.live)) = true) := by
    rw [hlive, hst]
    decide
  rw [if_neg hc1, if_pos hcap]

theorem joinRoomH_rejoin (st : SState) (rid : String) (user : UserInfo)
    (sock : String) (now : Nat) (room : Room)
    (hf : Room.findByRoomId st.rooms rid = some room)
    (hlive : room.isLive = true) (hst : room.status = RoomStatus.live)
    (hcap : room.currentParticipants < room.maxParticipants)
    (hmem : room.participants.any (fun p => p.uid == user.uid) = true) :
    joinRoomH st rid user sock now =
      ([Ev.roomUpdatedCallerEv rid, Ev.existingMessagesEv rid,
        Ev.userJoinedEv rid user.uid, Ev.roomUpdatedOthersEv rid],
       { st with
          rooms := saveRoom st.rooms
            (room.updateParticipantSocket user.uid sock) }) := by
  unfold joinRoomH
  rw [hf]
  dsimp only
  have hc1 : ¬((!room.isLive || !(room.status == RoomStatus.live)) = true) := by
    rw [hlive, hst]
    decide
  rw [if_neg hc1, if_neg (by omega : ¬(room.maxParticipants ≤ room.currentParticipants))]
  cases hfp : room.participants.find? (fun p => p.uid == user.uid) with
  | none =>
    obtain ⟨x, hx, hpx⟩ := List.any_eq_true.mp hmem
    exact absurd hpx (List.find?_eq_none.mp hfp x hx)
  | some q =>
    rfl

theorem joinRoomH_newMember (st : SState) (rid : String) (user : UserInfo)
    (sock : String) (now : Nat) (room : Room)
    (hf : Room.findByRoomId st.rooms rid = some room)
    (hlive : room.isLive = true) (hst : room.status = RoomStatus.live)
    (hcap : room.currentParticipants < room.maxParticipants)
    (hmem : room.participants.any (fun p => p.uid == user.uid) = false) :
    joinRoomH st rid user sock now =
      ([Ev.roomUpdatedCallerEv rid, Ev.existingMessagesEv rid,
        Ev.userJoinedEv rid user.uid, Ev.roomUpdatedOthersEv rid],
       { st with
          rooms := saveRoom st.rooms
            (room.addParticipant
              { uid := user.uid, displayName := user.displayName,
                username := user.username, avatar := user.avatar,
                joinedAt := now, socketId := some sock } now) }) := by
  unfold joinRoomH
  rw [hf]
  dsimp only
  have hc1 : ¬((!room.isLive || !(room.status == RoomStatus.live)) = true) := by
    rw [hlive, hst]
    decide
  rw [if_neg hc1, if_neg (by omega : ¬(room.maxParticipants ≤ room.currentParticipants))]
  have hfp : room.participants.find? (fun p => p.uid == user.uid) = none :=
    List.find?_eq_none.mpr (List.any_eq_false.mp hmem)
  rw [hfp]

theorem sendMessageH_member (st : SState) (rid text : String) (user : UserInfo)
    (sock msgId : String) (now : Nat) (room : Room)
    (htrim : (jsTrim text).length ≠ 0)
    (hf : Room.findByRoomId st.rooms rid = some room)
    (hmem : room.participants.any (fun p => p.uid == user.uid) = true) :
    sendMessageH st rid text user sock msgId now =
      ([Ev.newMessageEv rid (sentMessage rid text user sock msgId now)],
       { rooms := saveRoom st.rooms { room with lastActivity := now },
         msgs := st.msgs ++ [sentMessage rid text user sock msgId now] }) := by
  unfold sendMessageH
  rw [if_neg htrim, hf]
  dsimp only
  rw [if_neg (by rw [hmem]; decide : ¬((!room.participants.any (fun p => p.uid == user.uid)) = true))]

theorem sendMessageH_nonMember (st : SState) (rid text : String) (user : UserInfo)
    (sock msgId : String) (now : Nat) (room : Room)
    (htrim : (jsTrim text).length ≠ 0)
    (hf : Room.findByRoomId st.rooms rid = some room)
    (hmem : room.participants.any (fun p => p.uid == user.uid) = false) :
    sendMessageH st rid text user sock msgId now =
      ([Ev.errorEv ErrCode.NOT_IN_ROOM], st) := by
  unfold sendMessageH
  rw [if_neg htrim, hf]
  dsimp only
  rw [if_pos (by rw [hmem]; decide : (!room.participants.any (fun p => p.uid == user.uid)) = true)]

theorem endStreamH_unauthorized (st : SState) (rid : String) (u : UserInfo)
    (now : Nat) (room : Room)
    (hf : Room.findByRoomId st.rooms rid = some room)
    (h : room.admin.uid ≠ u.uid) :
    endStreamH st rid (some u) now = ([Ev.errorEv ErrCode.UNAUTHORIZED], st) := by
  have hb : (room.admin.uid == u.uid) = false := beq_eq_false_iff_ne.mpr h
  unfold endStreamH
  rw [hf]
  dsimp only
  rw [if_pos (by rw [hb]; decide : (!(room.admin.uid == u.uid)) = true)]

theorem endStreamH_admin (st : SState) (rid : String) (u : UserInfo)
    (now : Nat) (room : Room)
    (hf : Room.findByRoomId st.rooms rid = some room)
    (h : room.admin.uid = u.uid) :
    endStreamH st rid (some u) now =
      ([Ev.roomDeletedEv rid, Ev.roomsUpdatedEv],
       { st with
          rooms := saveRoom st.rooms
            { room with isLive := false, status := RoomStatus.ended,
                        endedAt := some now } }) := by
  have hb : (room.admin.uid == u.uid) = true := beq_iff_eq.mpr h
  unfold endStreamH
  rw [hf]
  dsimp only
  rw [if_neg (by rw [hb]; decide : ¬((!(room.admin.uid == u.uid)) = true))]

theorem leaveRoomH_found (st : SState) (rid : String) (user : UserInfo)
    (now : Nat) (room : Room)
    (hf : Room.findByRoomId st.rooms rid = some room) :
    leaveRoomH st rid user now =
      ([Ev.userLeftEv rid user.uid, Ev.roomUpdatedOthersEv rid],
       { st with
          rooms := saveRoom st.rooms (room.removeParticipant user.uid now) }) := by
  unfold leaveRoomH
  rw [hf]

theorem disconnectH_found (st : SState) (rid : String) (u : UserInfo)
    (now : Nat) (room : Room)
    (hf : Room.findByRoomId st.rooms rid = some room) :
    disconnectH st (some rid) (some u) now =
      ([Ev.userLeftEv rid u.uid, Ev.roomUpdatedOthersEv rid, Ev.roomsUpdatedEv],
       { st with
          rooms := saveRoom st.rooms (room.removeParticipant u.uid now) }) := by
  unfold disconnectH
  dsimp only
  rw [hf]

theorem disconnectH_missing (st : SState) (rid : String) (u : UserInfo)
    (now : Nat) (hf : Room.findByRoomId st.rooms rid = none) :
    disconnectH st (some rid) (some u) now = ([Ev.roomsUpdatedEv], st) := by
  unfold disconnectH
  dsimp only
  rw [hf]

theorem filter_uid_idem (ps : List Participant) (uid : String) :
    (ps.filter (fun p => !(p.uid == uid))).filter (fun p => !(p.uid == uid))
      = ps.filter (fun p => !(p.uid == uid)) :=
  List.filter_eq_self.mpr (fun _ ha => (List.mem_filter.mp ha).2)

theorem removeParticipant_not_mem (room : Room) (uid : String) (now : Nat)
    (h : uid ∉ room.participants.map (fun p => p.uid)) :
    (room.removeParticipant uid now).participants = room.participants := by
  show room.participants.filter (fun p => !(p.uid == uid)) = room.participants
  apply List.filter_eq_self.mpr
  intro p hp
  have hne : p.uid ≠ uid := fun he => h (List.mem_map.mpr ⟨p, hp, he⟩)
  simp [beq_eq_false_iff_ne.mpr hne]

theorem saveRoom_saveRoom (rooms : List Room) (a b : Room) (hid : a.id = b.id) :
    saveRoom (saveRoom rooms a) b = saveRoom rooms b := by
  unfold saveRoom
  rw [List.map_map]
  apply List.map_congr_left
  intro q _
  by_cases h : (q.id == a.id) = true
  · have hq2 : (q.id == b.id) = true := beq_iff_eq.mpr ((eq_of_beq h).trans hid)
    have hab : (a.id == b.id) = true := beq_iff_eq.mpr hid
    simp [Function.comp, h, hq2, hab]
  · have hq2 : (q.id == b.id) = false := by
      apply beq_eq_false_iff_ne.mpr
      intro he
      exact h (beq_iff_eq.mpr (he.trans hid.symm))
    simp [Function.comp, h, hq2]

theorem saveRoom_map_roomObs (rooms : List Room) (a b : Room)
    (h : roomObs a = roomObs b) :
    (saveRoom rooms a).map roomObs = (saveRoom rooms b).map roomObs := by
  have hid : a.id = b.id := congrArg Prod.fst h
  unfold saveRoom
  rw [List.map_map, List.map_map]
  apply List.map_congr_left
  intro q _
  by_cases hqa : (q.id == a.id) = true
  · have hqb : (q.id == b.id) = true := beq_iff_eq.mpr ((eq_of_beq hqa).trans hid)
    simp [Function.comp, hqa, hqb, h]
  · have hqb : (q.id == b.id) = false := by
      apply beq_eq_false_iff_ne.mpr
      intro he
      exact hqa (beq_iff_eq.mpr (he.trans hid.symm))
    simp [Function.comp, hqa, hqb]

theorem nodup_filter_uid_le_one (ps : List Participant) (u : String)
    (h : (ps.map (fun p => p.uid)).Nodup) :
    (ps.filter (fun p => p.uid == u)).length ≤ 1 := by
  have h1 : (ps.filter (fun p => p.uid == u)).length
      = ps.countP (fun p => p.uid == u) := (List.countP_eq_length_filter _ _).symm
  have h2 : ps.countP (fun p => p.uid == u)
      = (ps.map (fun p => p.uid)).countP (fun x => x == u) := by
    rw [List.countP_map]
    rfl
  have h3 : (ps.map (fun p => p.uid)).countP (fun x => x == u)
      = (ps.map (fun p => p.uid)).count u := rfl
  rw [h1, h2, h3]
  exact List.nodup_iff_count_le_one.mp h u

theorem addParticipant_lastActivity (room : Room) (p : Participant) (now : Nat)
    (h : room.participants.any (fun q => q.uid == p.uid) = false) :
    (room.addParticipant p now).lastActivity = now := by
  unfold Room.addParticipant
  rw [if_neg (by rw [h]; decide)]

theorem addParticipant_participants (room : Room) (p : Participant) (now : Nat)
    (h : room.participants.any (fun q => q.uid == p.uid) = false) :
    (room.addParticipant p now).participants = room.participants ++ [p] := by
  unfold Room.addParticipant
  rw [if_neg (by rw [h]; decide)]

theorem addParticipant_status (room : Room) (p : Participant) (now : Nat) :
    (room.addParticipant p now).status = room.status := by
  unfold Room.addParticipant
  split <;> rfl

theorem addParticipant_isLive (room : Room) (p : Participant) (now : Nat) :
    (room.addParticipant p now).isLive = room.isLive := by
  unfold Room.addParticipant
  split <;> rfl

theorem addParticipant_id (room : Room) (p : Participant) (now : Nat) :
    (room.addParticipant p now).id = room.id := by
  unfold Room.addParticipant
  split <;> rfl

/-- C1 (amended): the sendMessage handler checks no room status at all.
For a room whose status is not live, a send by a sender who is still a
participant succeeds: the newMessage broadcast is emitted and the
message record is persisted; only a sender who is not a participant is
rejected, with NOT_IN_ROOM, leaving the store unchanged.  There is no
NOT_LIVE rejection for messages. -/
theorem sendMessage_ended_room_behavior (st : SState) (rid text : String)
    (user : UserInfo) (sock msgId : String) (now : Nat) (room : Room)
    (hf : Room.findByRoomId st.rooms rid = some room)
    (_hnl : room.status ≠ RoomStatus.live)
    (htrim : (jsTrim text).length ≠ 0) :
    (room.participants.any (fun p => p.uid == user.uid) = true →
      sendMessageH st rid text user sock msgId now =
        ([Ev.newMessageEv rid (sentMessage rid text user sock msgId now)],
         { rooms := saveRoom st.rooms { room with lastActivity := now },
           msgs := st.msgs ++ [sentMessage rid text user sock msgId now] })) ∧
    (room.participants.any (fun p => p.uid == user.uid) = false →
      sendMessageH st rid text user sock msgId now =
        ([Ev.errorEv ErrCode.NOT_IN_ROOM], st)) :=
  ⟨fun hmem => sendMessageH_member st rid text user sock msgId now room htrim hf hmem,
   fun hmem => sendMessageH_nonMember st rid text user sock msgId now room htrim hf hmem⟩

/-- C1 counterexample: in the fixture store whose only room is ended
(status ended, isLive false) with B still recorded as a participant, a
sendMessage by B is not rejected: the newMessage event is emitted to
the room and the message record is appended to the store. -/
theorem sendMessage_ended_room_counterexample :
    (sendMessageH stEnded "r1" "hi" userB "s2" "m1" 9).1
        = [Ev.newMessageEv "r1" (sentMessage "r1" "hi" userB "s2" "m1" 9)] ∧
    (sendMessageH stEnded "r1" "hi" userB "s2" "m1" 9).2.msgs
        = [sentMessage "r1" "hi" userB "s2" "m1" 9] ∧
    roomEnded.status ≠ RoomStatus.live := by decide

/-- C1 witness: the amended claim instantiated on the ended fixture room
with member B sending hi. -/
theorem sendMessage_ended_room_witness :
    sendMessageH stEnded "r1" "hi" userB "s2" "m1" 9 =
      ([Ev.newMessageEv "r1" (sentMessage "r1" "hi" userB "s2" "m1" 9)],
       { rooms := saveRoom stEnded.rooms { roomEnded with lastActivity := 9 },
         msgs := stEnded.msgs ++ [sentMessage "r1" "hi" userB "s2" "m1" 9] }) :=
  (sendMessage_ended_room_behavior stEnded "r1" "hi" userB "s2" "m1" 9 roomEnded
    (by decide) (by decide) (by decide)).1 (by decide)

/-- C2 (amended): the capacity check of the joinRoom handler runs before
the membership check, so for a room at capacity every join is rejected
with ROOM_FULL and leaves the store (hence the participant count)
unchanged, whether or not the joining uid is already a member; a rejoin
at capacity does not succeed. -/
theorem joinRoom_at_capacity_rejected (st : SState) (rid : String)
    (user : UserInfo) (sock : String) (now : Nat) (room : Room)
    (hf : Room.findByRoomId st.rooms rid = some room)
    (hlive : room.isLive = true) (hst : room.status = RoomStatus.live)
    (hcap : room.currentParticipants = room.maxParticipants) :
    joinRoomH st rid user sock now = ([Ev.errorEv ErrCode.ROOM_FULL], st) :=
  joinRoomH_full st rid user sock now room hf hlive hst (le_of_eq hcap.symm)

/-- C2 counterexample: in the fixture store whose only room is live and
at capacity (one slot, filled by A), a join by the already-member uid A
is rejected with ROOM_FULL instead of succeeding as a channel
replacement. -/
theorem joinRoom_at_capacity_counterexample :
    joinRoomH stCap "r1" userA "s9" 7 = ([Ev.errorEv ErrCode.ROOM_FULL], stCap) ∧
    (roomCap.participants.any (fun p => p.uid == userA.uid)) = true ∧
    roomCap.currentParticipants = roomCap.maxParticipants := by decide

/-- C2 witness: the amended claim instantiated on the at-capacity
fixture room with the fresh uid B. -/
theorem joinRoom_at_capacity_witness :
    joinRoomH stCap "r1" userB "s2" 7 = ([Ev.errorEv ErrCode.ROOM_FULL], stCap) :=
  joinRoom_at_capacity_rejected stCap "r1" userB "s2" 7 roomCap
    (by decide) (by decide) (by decide) (by decide)

/-- C3: in every server state reachable by the core operations, each
room lists any given uid at most once; and a join for a uid that is
already a member leaves the uid list and the participant count of the
room unchanged (channel replacement only, no second membership
record). -/
theorem participants_unique_per_uid :
    (∀ st : SState, Reachable st → ∀ r ∈ st.rooms, ∀ u : String,
        (r.participants.filter (fun p => p.uid == u)).length ≤ 1) ∧
    (∀ (st : SState) (rid : String) (user : UserInfo) (sock : String)
        (now : Nat) (room : Room),
        Room.findByRoomId st.rooms rid = some room →
        room.participants.any (fun p => p.uid == user.uid) = true →
        ∃ r', Room.findByRoomId (joinRoomH st rid user sock now).2.rooms rid = some r' ∧
          r'.participants.map (fun p => p.uid)
            = room.participants.map (fun p => p.uid) ∧
          r'.participants.length = room.participants.length) := by
  constructor
  · intro st hst r hr u
    exact nodup_filter_uid_le_one _ u (reachable_roomInv hst r hr).2
  · intro st rid user sock now room hf hmem
    by_cases hlive : room.isLive = true
    · by_cases hst2 : room.status = RoomStatus.live
      · by_cases hcap : room.maxParticipants ≤ room.currentParticipants
        · rw [joinRoomH_full st rid user sock now room hf hlive hst2 hcap]
          exact ⟨room, hf, rfl, rfl⟩
        · rw [joinRoomH_rejoin st rid user sock now room hf hlive hst2 (by omega) hmem]
          exact ⟨room.updateParticipantSocket user.uid sock,
            findByRoomId_saveRoom hf rfl,
            setSocketFirst_map_uid _ _ _, setSocketFirst_length _ _ _⟩
      · rw [joinRoomH_notLive st rid user sock now room hf (Or.inr hst2)]
        exact ⟨room, hf, rfl, rfl⟩
    · rw [joinRoomH_notLive st rid user sock now room hf
        (Or.inl (Bool.eq_false_iff.mpr hlive))]
      exact ⟨room, hf, rfl, rfl⟩

/-- C3 witness: the rejoin clause instantiated on the fixture live room,
member A rejoining; the uid list stays exactly A. -/
theorem participants_unique_witness :
    (Room.findByRoomId (joinRoomH stHome "r1" userA "s9" 7).2.rooms "r1").map
      (fun r => r.participants.map (fun p => p.uid)) = some ["A"] := by
  obtain ⟨r', hf, hmap, _⟩ :=
    participants_unique_per_uid.2 stHome "r1" userA "s9" 7 roomHome
      (by decide) (by decide)
  rw [hf]
  show some (r'.participants.map (fun p => p.uid)) = some ["A"]
  rw [hmap]
  decide

/-- C4 (amended): endStream by a non-admin uid fails UNAUTHORIZED and
leaves the store unchanged (the room stays live); endStream by the
admin sets status ended, isLive false and the end timestamp, and a
subsequent join on the ended room is rejected ROOM_NOT_LIVE.  The
transition is not terminal for the other operations, however: a
subsequent leave on the ended room still succeeds (userLeft is emitted,
membership shrinks), and a send by a remaining member still succeeds
since the handler checks no status. -/
theorem endStream_auth_and_after (st : SState) (rid : String) (u : UserInfo)
    (now tJoin tLeave : Nat) (user : UserInfo) (sock : String) (room : Room)
    (hf : Room.findByRoomId st.rooms rid = some room) :
    (room.admin.uid ≠ u.uid →
      endStreamH st rid (some u) now = ([Ev.errorEv ErrCode.UNAUTHORIZED], st)) ∧
    (room.admin.uid = u.uid →
      ∃ room', Room.findByRoomId (endStreamH st rid (some u) now).2.rooms rid
          = some room' ∧
        room'.status = RoomStatus.ended ∧ room'.isLive = false ∧
        room'.endedAt = some now ∧
        joinRoomH (endStreamH st rid (some u) now).2 rid user sock tJoin
          = ([Ev.errorEv ErrCode.ROOM_NOT_LIVE], (endStreamH st rid (some u) now).2) ∧
        (leaveRoomH (endStreamH st rid (some u) now).2 rid user tLeave).1
          = [Ev.userLeftEv rid user.uid, Ev.roomUpdatedOthersEv rid]) := by
  constructor
  · intro hne
    exact endStreamH_unauthorized st rid u now room hf hne
  · intro hadm
    have heq := endStreamH_admin st rid u now room hf hadm
    have hf2 : Room.findByRoomId (endStreamH st rid (some u) now).2.rooms rid
        = some { room with isLive := false, status := RoomStatus.ended,
                           endedAt := some now } := by
      rw [heq]
      exact findByRoomId_saveRoom hf rfl
    refine ⟨_, hf2, rfl, rfl, rfl, ?_, ?_⟩
    · exact joinRoomH_notLive _ rid user sock tJoin _ hf2
        (Or.inr (fun h => RoomStatus.noConfusion h))
    · exact congrArg Prod.fst (leaveRoomH_found _ rid user tLeave _ hf2)

/-- C4 counterexample: on the fixture ended room a leave by member B
succeeds: the userLeft notification is emitted and the membership of
the ended room shrinks to A, so endStream is not terminal for leave. -/
theorem endStream_not_terminal_counterexample :
    (leaveRoomH stEnded "r1" userB 7).1
      = [Ev.userLeftEv "r1" "B", Ev.roomUpdatedOthersEv "r1"] ∧
    (Room.findByRoomId (leaveRoomH stEnded "r1" userB 7).2.rooms "r1").map
      (fun r => r.participants.map (fun p => p.uid)) = some ["A"] ∧
    roomEnded.status = RoomStatus.ended := by decide

/-- C4 witness: the amended claim instantiated on the fixture live room
ended by its admin A; afterwards a join by B is rejected
ROOM_NOT_LIVE. -/
theorem endStream_auth_witness :
    (Room.findByRoomId (endStreamH stHome "r1" (some userA) 8).2.rooms "r1").map
      (fun r => r.status) = some RoomStatus.ended ∧
    joinRoomH (endStreamH stHome "r1" (some userA) 8).2 "r1" userB "s2" 9
      = ([Ev.errorEv ErrCode.ROOM_NOT_LIVE], (endStreamH stHome "r1" (some userA) 8).2) := by
  obtain ⟨room', hf, hst, _, _, hjoin, _⟩ :=
    (endStream_auth_and_after stHome "r1" userA 8 9 10 userB "s2" roomHome
      (by decide)).2 (by decide)
  constructor
  · rw [hf]
    show some room'.status = some RoomStatus.ended
    rw [hst]
  · exact hjoin

/-- C5: in every server state reachable by the core operations, the
stored currentParticipants field of every room equals the length of its
participants array. -/
theorem currentParticipants_eq_length (st : SState) (h : Reachable st) :
    ∀ r ∈ st.rooms, r.currentParticipants = r.participants.length :=
  fun r hr => (reachable_roomInv h r hr).1

/-- C5 witness: the invariant instantiated on the room produced by a
concrete createRoom step from the empty store. -/
theorem currentParticipants_witness :
    createdRoom.currentParticipants = createdRoom.participants.length :=
  currentParticipants_eq_length
    (applyOp ⟨[], []⟩ (Op.create "r1" "t" "d" userA "g" [] true 2 "s1") 0).2
    (Reachable.step ⟨[], []⟩ (Op.create "r1" "t" "d" userA "g" [] true 2 "s1") 0
      Reachable.init)
    createdRoom (by decide)

/-- C6: removeParticipant for an absent uid leaves the participants
array unchanged (a no-op, not an error); removing twice yields the same
participants and count as removing once; and the disconnect cleanup
handler is idempotent on the observable room state (id, membership,
count) of every stored room. -/
theorem leave_idempotent :
    (∀ (room : Room) (uid : String) (now : Nat),
        uid ∉ room.participants.map (fun p => p.uid) →
        (room.removeParticipant uid now).participants = room.participants) ∧
    (∀ (room : Room) (uid : String) (n1 n2 : Nat),
        ((room.removeParticipant uid n1).removeParticipant uid n2).participants
          = (room.removeParticipant uid n1).participants ∧
        ((room.removeParticipant uid n1).removeParticipant uid n2).currentParticipants
          = (room.removeParticipant uid n1).currentParticipants) ∧
    (∀ (st : SState) (cr : Option String) (cu : Option UserInfo) (n1 n2 : Nat),
        (disconnectH (disconnectH st cr cu n1).2 cr cu n2).2.rooms.map roomObs
          = (disconnectH st cr cu n1).2.rooms.map roomObs) := by
  refine ⟨removeParticipant_not_mem, ?_, ?_⟩
  · intro room uid n1 n2
    exact ⟨filter_uid_idem room.participants uid,
      congrArg List.length (filter_uid_idem room.participants uid)⟩
  · intro st cr cu n1 n2
    cases cr with
    | none => rfl
    | some rid =>
      cases cu with
      | none => rfl
      | some u =>
        cases hf : Room.findByRoomId st.rooms rid with
        | none =>
          rw [disconnectH_missing st rid u n1 hf, disconnectH_missing st rid u n2 hf]
        | some room =>
          rw [disconnectH_found st rid u n1 room hf]
          have hf2 : Room.findByRoomId
              (saveRoom st.rooms (room.removeParticipant u.uid n1)) rid
              = some (room.removeParticipant u.uid n1) :=
            findByRoomId_saveRoom hf rfl
          rw [disconnectH_found _ rid u n2 _ hf2]
          show (saveRoom (saveRoom st.rooms (room.removeParticipant u.uid n1))
              ((room.removeParticipant u.uid n1).removeParticipant u.uid n2)).map roomObs
            = (saveRoom st.rooms (room.removeParticipant u.uid n1)).map roomObs
          rw [saveRoom_saveRoom st.rooms (room.removeParticipant u.uid n1)
            ((room.removeParticipant u.uid n1).removeParticipant u.uid n2) rfl]
          apply saveRoom_map_roomObs
          have hp := filter_uid_idem room.participants u.uid
          unfold roomObs Room.removeParticipant
          simp only [Prod.mk.injEq]
          exact ⟨trivial, hp, congrArg List.length hp⟩

/-- C6 witness: the absent-uid clause instantiated on the fixture live
room with a uid that never joined. -/
theorem leave_idempotent_witness :
    (roomHome.removeParticipant "Z" 3).participants = roomHome.participants :=
  leave_idempotent.1 roomHome "Z" 3 (by decide)

/-- C7 (amended): a successful join of a new member sets lastActivity to
now (addParticipant bumps it), but a successful rejoin of an existing
member only replaces the socket handle: updateParticipantSocket does
not touch lastActivity, so the rejoin case does not bump it. -/
theorem join_lastActivity (st : SState) (rid : String) (user : UserInfo)
    (sock : String) (now : Nat) (room : Room)
    (hf : Room.findByRoomId st.rooms rid = some room)
    (hlive : room.isLive = true) (hst : room.status = RoomStatus.live)
    (hcap : room.currentParticipants < room.maxParticipants) :
    (room.participants.any (fun p => p.uid == user.uid) = false →
      ∃ r', Room.findByRoomId (joinRoomH st rid user sock now).2.rooms rid
          = some r' ∧ r'.lastActivity = now) ∧
    (room.participants.any (fun p => p.uid == user.uid) = true →
      ∃ r', Room.findByRoomId (joinRoomH st rid user sock now).2.rooms rid
          = some r' ∧ r'.lastActivity = room.lastActivity) := by
  constructor
  · intro hmem
    rw [joinRoomH_newMember st rid user sock now room hf hlive hst hcap hmem]
    exact ⟨_, findByRoomId_saveRoom hf (addParticipant_id room _ now),
      addParticipant_lastActivity room _ now hmem⟩
  · intro hmem
    rw [joinRoomH_rejoin st rid user sock now room hf hlive hst hcap hmem]
    exact ⟨_, findByRoomId_saveRoom hf rfl, rfl⟩

/-- C7 counterexample: on the fixture live room (lastActivity 5) the
already-member A rejoins at time 99; the join succeeds (the success
events are emitted) yet lastActivity stays 5 instead of being bumped
to 99. -/
theorem join_lastActivity_counterexample :
    (joinRoomH stHome "r1" userA "s9" 99).1
      = [Ev.roomUpdatedCallerEv "r1", Ev.existingMessagesEv "r1",
         Ev.userJoinedEv "r1" "A", Ev.roomUpdatedOthersEv "r1"] ∧
    (Room.findByRoomId (joinRoomH stHome "r1" userA "s9" 99).2.rooms "r1").map
      (fun r => r.lastActivity) = some 5 ∧
    ¬((Room.findByRoomId (joinRoomH stHome "r1" userA "s9" 99).2.rooms "r1").map
      (fun r => r.lastActivity) = some 99) := by decide

/-- C7 witness: the rejoin clause instantiated on the fixture live room,
member A rejoining at time 99; lastActivity stays at its prior value
5. -/
theorem join_lastActivity_witness :
    (Room.findByRoomId (joinRoomH stHome "r1" userA "s9" 99).2.rooms "r1").map
      (fun r => r.lastActivity) = some 5 := by
  obtain ⟨r', hf, hl⟩ :=
    (join_lastActivity stHome "r1" userA "s9" 99 roomHome
      (by decide) (by decide) (by decide) (by decide)).2 (by decide)
  rw [hf]
  show some r'.lastActivity = some 5
  rw [hl]
  decide

/-- C8: searchMessages returns only messages of the requested room that
are not soft-deleted and whose text contains the query
case-insensitively; the result is ordered by created-time descending
and has length at most the limit; and whenever the set of matching
messages fits within the limit, every matching stored message is
returned. -/
theorem searchMessages_spec (msgs : List Message) (rid q : String) (lim : Nat) :
    (∀ m ∈ Message.searchMessages msgs rid q lim,
        m.roomId = rid ∧ m.isDeleted = false ∧ matchesCI q m.text = true) ∧
    List.Sorted createdDesc (Message.searchMessages msgs rid q lim) ∧
    (Message.searchMessages msgs rid q lim).length ≤ lim ∧
    ((msgs.filter (searchPred rid q)).length ≤ lim →
      ∀ m ∈ msgs, searchPred rid q m = true →
        m ∈ Message.searchMessages msgs rid q lim) := by
  refine ⟨?_, ?_, ?_, ?_⟩
  · intro m hm
    have hm1 : m ∈ (msgs.filter (searchPred rid q)).insertionSort createdDesc :=
      List.take_subset _ _ hm
    have hm2 : m ∈ msgs.filter (searchPred rid q) :=
      (List.perm_insertionSort createdDesc _).mem_iff.mp hm1
    have hp := List.of_mem_filter hm2
    unfold searchPred at hp
    simp only [Bool.and_eq_true] at hp
    obtain ⟨⟨h1, h2⟩, h3⟩ := hp
    exact ⟨eq_of_beq h1, by simpa using h2, h3⟩
  · exact List.Pairwise.sublist (List.take_sublist _ _)
      (List.sorted_insertionSort createdDesc _)
  · show (List.take lim _).length ≤ lim
    rw [List.length_take]
    exact Nat.min_le_left _ _
  · intro hlen m hm hp
    have hm2 : m ∈ msgs.filter (searchPred rid q) := List.mem_filter.mpr ⟨hm, hp⟩
    have hm3 : m ∈ (msgs.filter (searchPred rid q)).insertionSort createdDesc :=
      (List.perm_insertionSort createdDesc _).mem_iff.mpr hm2
    have hlen2 : ((msgs.filter (searchPred rid q)).insertionSort createdDesc).length
        ≤ lim := by
      rw [(List.perm_insertionSort createdDesc _).length_eq]
      exact hlen
    show m ∈ List.take lim _
    rw [List.take_of_length_le hlen2]
    exact hm3

/-- C8 witness: the completeness clause instantiated on a store holding
one message with text hi, queried with the upper-case term HI. -/
theorem searchMessages_witness :
    msgHi ∈ Message.searchMessages [msgHi] "r1" "HI" 20 :=
  (searchMessages_spec [msgHi] "r1" "HI" 20).2.2.2 (by decide) msgHi
    (by decide) (by decide)

/-- C9: a successful endStream by the admin changes only isLive, status
and endedAt on the room record: participants, admin, capacity, count
and every other modelled field are unchanged (so every member at ending
time stays recorded), and the message store is untouched. -/
theorem endStream_frame (st : SState) (rid : String) (u : UserInfo) (now : Nat)
    (room : Room) (hf : Room.findByRoomId st.rooms rid = some room)
    (hadm : room.admin.uid = u.uid) :
    ∃ room', Room.findByRoomId (endStreamH st rid (some u) now).2.rooms rid
        = some room' ∧
      room'.isLive = false ∧ room'.status = RoomStatus.ended ∧
      room'.endedAt = some now ∧
      room'.participants = room.participants ∧ room'.admin = room.admin ∧
      room'.maxParticipants = room.maxParticipants ∧
      room'.currentParticipants = room.currentParticipants ∧
      room'.id = room.id ∧ room'.title = room.title ∧
      room'.description = room.description ∧ room'.category = room.category ∧
      room'.tags = room.tags ∧ room'.isPublic = room.isPublic ∧
      room'.startedAt = room.startedAt ∧ room'.createdBy = room.createdBy ∧
      room'.lastActivity = room.lastActivity ∧
      (endStreamH st rid (some u) now).2.msgs = st.msgs := by
  rw [endStreamH_admin st rid u now room hf hadm]
  exact ⟨_, findByRoomId_saveRoom hf rfl, rfl, rfl, rfl, rfl, rfl, rfl, rfl,
    rfl, rfl, rfl, rfl, rfl, rfl, rfl, rfl, rfl, rfl⟩

/-- C9 witness: the frame condition instantiated on the fixture live
room ended by its admin A: status flips to ended while membership and
lastActivity are untouched. -/
theorem endStream_frame_witness :
    (Room.findByRoomId (endStreamH stHome "r1" (some userA) 8).2.rooms "r1").map
      (fun r => (r.status, r.participants.map (fun p => p.uid), r.lastActivity))
      = some (RoomStatus.ended, ["A"], 5) := by
  obtain ⟨room', hf, _, hst, _, hparts, _, _, _, _, _, _, _, _, _, _, _, hlast, _⟩ :=
    endStream_frame stHome "r1" userA 8 roomHome (by decide) (by decide)
  rw [hf]
  show some (room'.status, room'.participants.map (fun p => p.uid),
    room'.lastActivity) = _
  rw [hst, hparts, hlast]
  decide

theorem joinRoomH_rooms_eq_writeBack (st : SState) (rid : String)
    (user : UserInfo) (sock : String) (now : Nat) (room : Room)
    (hf : Room.findByRoomId st.rooms rid = some room) :
    (joinRoomH st rid user sock now).2.rooms =
      (match joinWriteBack room user sock now with
       | none => st.rooms
       | some doc => saveRoom st.rooms doc) := by
  unfold joinWriteBack
  by_cases h1 : (!room.isLive || !(room.status == RoomStatus.live)) = true
  · rw [if_pos h1]
    have hlive : room.isLive = false ∨ room.status ≠ RoomStatus.live := by
      rcases Bool.or_eq_true_iff.mp h1 with h | h
      · exact Or.inl (by simpa using h)
      · refine Or.inr (fun he => ?_)
        rw [he] at h
        simp at h
    rw [joinRoomH_notLive st rid user sock now room hf hlive]
  · rw [if_neg h1]
    have hlive : room.isLive = true := by
      rcases hb : room.isLive with _ | _
      · rw [hb] at h1
        simp at h1
      · rfl
    have hst : room.status = RoomStatus.live := by
      by_contra hne
      exact h1 (by simp [beq_eq_false_iff_ne.mpr hne])
    by_cases h2 : room.maxParticipants ≤ room.currentParticipants
    · rw [if_pos h2, joinRoomH_full st rid user sock now room hf hlive hst h2]
    · rw [if_neg h2]
      cases hfp : room.participants.find? (fun p => p.uid == user.uid) with
      | some q =>
        have hmem : room.participants.any (fun p => p.uid == user.uid) = true :=
          List.any_eq_true.mpr ⟨q, List.mem_of_find?_eq_some hfp,
            @List.find?_some Participant (fun p => p.uid == user.uid) q
              room.participants hfp⟩
        rw [joinRoomH_rejoin st rid user sock now room hf hlive hst (by omega) hmem]
      | none =>
        have hmem : room.participants.any (fun p => p.uid == user.uid) = false :=
          List.any_eq_false.mpr (List.find?_eq_none.mp hfp)
        rw [joinRoomH_newMember st rid user sock now room hf hlive hst (by omega) hmem]

theorem endStreamH_rooms_eq_writeBack (st : SState) (rid : String)
    (u : UserInfo) (now : Nat) (room : Room)
    (hf : Room.findByRoomId st.rooms rid = some room) :
    (endStreamH st rid (some u) now).2.rooms =
      (match endWriteBack room u now with
       | none => st.rooms
       | some doc => saveRoom st.rooms doc) := by
  unfold endWriteBack
  by_cases h : room.admin.uid = u.uid
  · rw [if_pos (beq_iff_eq.mpr h), endStreamH_admin st rid u now room hf h]
  · rw [if_neg (by simp [beq_eq_false_iff_ne.mpr h]),
      endStreamH_unauthorized st rid u now room hf h]

/-- C10 (amended): the handlers hold no room-scoped critical section:
each performs an unsynchronized read-modify-write (findByRoomId, an
in-memory mutation of the snapshot, save), with an await point between
read and write.  Under the interleaving where a join and an endStream
on the same live room both read before either writes, both reach their
success paths, and the stale save of the join overwrites the ended
status: the final stored room is live again with the new member
present, so a join racing an endStream can silently both-succeed. -/
theorem join_end_race_both_succeed (st : SState) (rid : String)
    (user : UserInfo) (sock : String) (requester : UserInfo)
    (tEnd tJoin : Nat) (room : Room)
    (hf : Room.findByRoomId st.rooms rid = some room)
    (hlive : room.isLive = true) (hst : room.status = RoomStatus.live)
    (hcap : room.currentParticipants < room.maxParticipants)
    (hmem : room.participants.any (fun p => p.uid == user.uid) = false)
    (hadm : room.admin.uid = requester.uid) :
    ∃ st', joinRaceEnd st rid user sock requester tEnd tJoin = some st' ∧
      ∃ r', Room.findByRoomId st'.rooms rid = some r' ∧
        r'.status = RoomStatus.live ∧ r'.isLive = true ∧
        user.uid ∈ r'.participants.map (fun p => p.uid) := by
  have hend : endWriteBack room requester tEnd
      = some { room with isLive := false, status := RoomStatus.ended,
                         endedAt := some tEnd } := by
    unfold endWriteBack
    rw [if_pos (beq_iff_eq.mpr hadm)]
  have hfp : room.participants.find? (fun p => p.uid == user.uid) = none :=
    List.find?_eq_none.mpr (List.any_eq_false.mp hmem)
  have hjoin : joinWriteBack room user sock tJoin
      = some (room.addParticipant
          { uid := user.uid, displayName := user.displayName,
            username := user.username, avatar := user.avatar,
            joinedAt := tJoin, socketId := some sock } tJoin) := by
    unfold joinWriteBack
    rw [if_neg (by rw [hlive, hst]; decide), if_neg (by omega), hfp]
  unfold joinRaceEnd
  rw [hf]
  dsimp only
  rw [hend]
  dsimp only
  rw [hjoin]
  refine ⟨_, rfl, ?_⟩
  have hf1 : Room.findByRoomId
      (saveRoom st.rooms { room with isLive := false, status := RoomStatus.ended,
                                     endedAt := some tEnd }) rid
      = some { room with isLive := false, status := RoomStatus.ended,
                         endedAt := some tEnd } :=
    findByRoomId_saveRoom hf rfl
  have hf2 := findByRoomId_saveRoom hf1 (addParticipant_id room
    { uid := user.uid, displayName := user.displayName,
      username := user.username, avatar := user.avatar,
      joinedAt := tJoin, socketId := some sock } tJoin)
  refine ⟨_, hf2, ?_, ?_, ?_⟩
  · rw [addParticipant_status, hst]
  · rw [addParticipant_isLive, hlive]
  · rw [addParticipant_participants room _ tJoin hmem, List.map_append]
    exact List.mem_append_right _ (by simp)

/-- C10 counterexample: on the fixture live room with admin A, a join by
B races the endStream of A under the read-read-write-write
interleaving; both succeed and the final stored room is live with B a
member, contradicting serialization under a room-scoped critical
section. -/
theorem join_end_race_counterexample :
    (joinRaceEnd stHome "r1" userB "s2" userA 50 60).map
      (fun s => (Room.findByRoomId s.rooms "r1").map
        (fun r => (r.status, r.isLive, r.participants.map (fun p => p.uid))))
      = some (some (RoomStatus.live, true, ["A", "B"])) := by decide

/-- C10 witness: the amended claim instantiated on the fixture live room
with joiner B and admin requester A. -/
theorem join_end_race_witness :
    (joinRaceEnd stHome "r1" userB "s2" userA 50 60).map
      (fun s => (Room.findByRoomId s.rooms "r1").map (fun r => r.status))
      = some (some RoomStatus.live) := by
  obtain ⟨st', hrace, r', hf, hstatus, _, _⟩ :=
    join_end_race_both_succeed stHome "r1" userB "s2" userA 50 60 roomHome
      (by decide) (by decide) (by decide) (by decide) (by decide) (by decide)
  rw [hrace]
  show some ((Room.findByRoomId st'.rooms "r1").map (fun r => r.status))
    = some (some RoomStatus.live)
  rw [hf]
  show some (some r'.status) = some (some RoomStatus.live)
  rw [hstatus]
